import Mathlib

/-!
Verification of the cartmin file-manager navigation and network-synchronization
engine (src/lib/file-manager.js, src/lib/constructor.js).

The JavaScript string primitives used by the source (`substring` up to
`lastIndexOf('/')`, `includes`, `startsWith`, `replace` with a string pattern)
are embedded over `List Char`.  The stateful navigation code is embedded as
pure state-passing functions producing an explicit trace of UI actions.
Loops of the source that are not structurally terminating (`destroyNav`'s
close loop, the path build-up loop of `navInFileManager`) are embedded with
an explicit fuel argument sized from the input; exhaustion (which models
divergence of the source loop) is reported as `none`.
-/

namespace Cartmin

/-- JS `s.includes(t)`: does `t` occur as a contiguous substring of `s`?
Embedded as a scan over the character list. -/
def hasSub : List Char → List Char → Bool
  | l, pat =>
    if pat.isPrefixOf l then true
    else
      match l with
      | [] => false
      | _ :: t => hasSub t pat

/-- JS `cursor.includes(path)` on strings. -/
def jsIncludes (s t : String) : Bool := hasSub s.data t.data

/-- JS `s.startsWith(t)` on strings. -/
def jsStartsWith (s t : String) : Bool := t.data.isPrefixOf s.data

/-- JS `s.substring(0, s.lastIndexOf('/'))`: the text before the last `/`,
or `""` when `s` has no `/` (a negative `lastIndexOf` clamps the substring
to the empty range). -/
def jsParent (s : String) : String :=
  match s.data.reverse.dropWhile (fun c => c ≠ '/') with
  | [] => ""
  | _ :: t => String.mk t.reverse

/-- One step of JS `String.prototype.replace` with a *string* pattern:
replace only the first occurrence of `pat`. -/
def replaceFirstAux (rep : List Char) : List Char → List Char → List Char
  | [], pat => if pat.isPrefixOf [] then rep else []
  | c :: rest, pat =>
    if pat.isPrefixOf (c :: rest) then rep ++ (c :: rest).drop pat.length
    else c :: replaceFirstAux rep rest pat

/-- JS `s.replace(pat, rep)` with a string pattern (first occurrence only). -/
def jsReplaceFirst (s pat rep : String) : String :=
  String.mk (replaceFirstAux rep.data s.data pat.data)

/-- Payload key armed before the listing fetch of a directory
(`'directory=' + path.replace('/', '%2F')` in `getDirFilesPromise`). -/
def payloadKey (path : String) : String :=
  "directory=" ++ jsReplaceFirst path "/" "%2F"

example : jsParent "a/b/c" = "a/b" := by decide
example : jsParent "abc" = "" := by decide
example : jsParent "" = "" := by decide
example : jsIncludes "a/b" "a" = true := by decide
example : jsIncludes "a/b" "a/c" = false := by decide
example : jsIncludes "xab" "ab" = true := by decide
example : payloadKey "a/b/c" = "directory=a%2Fb/c" := by decide
example : payloadKey "2024/spring" = "directory=2024%2Fspring" := by decide

/-- The parent of a nonempty path is strictly shorter. -/
theorem jsParent_length_lt (s : String) (h : s ≠ "") :
    (jsParent s).length < s.length := by
  have hd : s.data ≠ [] := by
    intro hnil
    exact h (by cases s with | mk d => simp only at hnil; simp [hnil])
  have hpos : 0 < s.data.length := List.length_pos.mpr hd
  have hsub : List.Sublist (s.data.reverse.dropWhile (fun c => c ≠ '/')) s.data.reverse :=
    List.dropWhile_sublist _
  have hlen : s.length = s.data.length := rfl
  unfold jsParent
  cases hx : s.data.reverse.dropWhile (fun c => c ≠ '/') with
  | nil =>
    show (String.mk []).length < s.length
    rw [String.length_mk, hlen]
    simpa using hpos
  | cons c t =>
    rw [hx] at hsub
    have hle := hsub.length_le
    show (String.mk t.reverse).length < s.length
    rw [String.length_mk, hlen]
    simp only [List.length_cons, List.length_reverse] at hle ⊢
    omega

/-- The chain of truncations of a path: `[p, parent p, ..., ""]`.
Fuelled; `truncChain` below always supplies enough fuel. -/
def truncChainA : Nat → String → List String
  | 0, p => [p]
  | n + 1, p => if p = "" then [""] else p :: truncChainA n (jsParent p)

/-- The chain of truncations of a path: `[p, jsParent p, ..., ""]`. -/
def truncChain (p : String) : List String := truncChainA (p.length + 1) p

theorem truncChainA_stable : ∀ (m n : Nat) (p : String), p.length < m → p.length < n →
    truncChainA m p = truncChainA n p := by
  intro m
  induction m with
  | zero => intro n p hm _; omega
  | succ m ih =>
    intro n p hm hn
    cases n with
    | zero => omega
    | succ n =>
      by_cases hp : p = ""
      · simp [truncChainA, hp]
      · simp only [truncChainA, if_neg hp]
        have hlt := jsParent_length_lt p hp
        rw [ih n (jsParent p) (by omega) (by omega)]

theorem truncChain_cons (p : String) (hp : p ≠ "") :
    truncChain p = p :: truncChain (jsParent p) := by
  have hlt := jsParent_length_lt p hp
  show truncChainA (p.length + 1) p = _
  simp only [truncChainA, if_neg hp]
  rw [truncChainA_stable p.length ((jsParent p).length + 1) (jsParent p) (by omega) (by omega)]
  rfl

theorem truncChain_eq (p : String) :
    truncChain p = if p = "" then [""] else p :: truncChain (jsParent p) := by
  by_cases hp : p = ""
  · subst hp; rfl
  · rw [if_neg hp]; exact truncChain_cons p hp

theorem self_mem_truncChain (p : String) : p ∈ truncChain p := by
  by_cases hp : p = ""
  · subst hp; simp [truncChain, truncChainA]
  · rw [truncChain_cons p hp]; exact List.mem_cons_self _ _

theorem empty_mem_truncChainA : ∀ (n : Nat) (p : String), p.length < n →
    "" ∈ truncChainA n p := by
  intro n
  induction n with
  | zero => intro p h; omega
  | succ n ih =>
    intro p h
    by_cases hp : p = ""
    · simp [truncChainA, hp]
    · simp only [truncChainA, if_neg hp]
      have := jsParent_length_lt p hp
      exact List.mem_cons_of_mem _ (ih (jsParent p) (by omega))

theorem empty_mem_truncChain (p : String) : "" ∈ truncChain p :=
  empty_mem_truncChainA _ p (by omega)

theorem mem_truncChainA_length : ∀ (n : Nat) (p q : String), p.length < n →
    q ∈ truncChainA n p → q.length ≤ p.length := by
  intro n
  induction n with
  | zero => intro p q h _; omega
  | succ n ih =>
    intro p q h hq
    by_cases hp : p = ""
    · subst hp
      simp [truncChainA] at hq
      subst hq
      exact Nat.le_refl _
    · simp only [truncChainA, if_neg hp, List.mem_cons] at hq
      rcases hq with hq | hq
      · subst hq; exact Nat.le_refl _
      · have hlt := jsParent_length_lt p hp
        have := ih (jsParent p) q (by omega) hq
        omega

theorem mem_truncChain_length (p q : String) (h : q ∈ truncChain p) :
    q.length ≤ p.length :=
  mem_truncChainA_length _ p q (by omega) h

theorem mem_truncChain_of_ne {p q : String} (h : q ∈ truncChain p) (hne : q ≠ p) :
    p ≠ "" ∧ q ∈ truncChain (jsParent p) := by
  by_cases hp : p = ""
  · subst hp
    rw [truncChain_eq] at h
    simp at h
    exact absurd h hne
  · rw [truncChain_cons p hp, List.mem_cons] at h
    rcases h with h | h
    · exact absurd h hne
    · exact ⟨hp, h⟩

/-- Directories on the truncation chain of `p` strictly below the ancestor `a`
(i.e. before `a` first appears in the chain). -/
def belowChain (p a : String) : List String :=
  (truncChain p).takeWhile (fun q => q ≠ a)

theorem belowChain_self (c : String) : belowChain c c = [] := by
  unfold belowChain
  rw [truncChain_eq]
  by_cases hc : c = ""
  · subst hc; simp
  · simp [hc, List.takeWhile_cons]

theorem belowChain_cons {p a : String} (hp : p ≠ "") (hpa : p ≠ a) :
    belowChain p a = p :: belowChain (jsParent p) a := by
  unfold belowChain
  rw [truncChain_cons p hp, List.takeWhile_cons]
  simp [hpa]

theorem belowChain_reverse_getLastD (t a : String) (h : a ∈ truncChain t) :
    (belowChain t a).reverse.getLastD a = t := by
  by_cases hta : t = a
  · subst hta; rw [belowChain_self]; rfl
  · have ht : t ≠ "" := by
      intro h0
      subst h0
      rw [truncChain_eq] at h
      simp at h
      exact hta h.symm
    rw [belowChain_cons ht (fun he => hta he), List.reverse_cons]
    exact List.getLastD_concat _ _ _

/-- The close loop of `destroyNav`
(`while (this.curDirPath !== path) { closeDir; curDirPath = parent }`):
returns the closed directories in order together with the final cursor, or
`none` when the loop never reaches `target` (the source loops forever). -/
def closeUpA : Nat → String → String → Option (List String × String)
  | 0, _, _ => none
  | n + 1, cursor, target =>
    if cursor = target then some ([], cursor)
    else if cursor = "" then none
    else
      match closeUpA n (jsParent cursor) target with
      | some (cs, c) => some (cursor :: cs, c)
      | none => none

def closeUp (cursor target : String) : Option (List String × String) :=
  closeUpA (cursor.length + 1) cursor target

theorem closeUpA_eq : ∀ (n : Nat) (cursor target : String), cursor.length < n →
    closeUpA n cursor target =
      if target ∈ truncChain cursor then some (belowChain cursor target, target)
      else none := by
  intro n
  induction n with
  | zero => intro c t h; omega
  | succ n ih =>
    intro c t h
    by_cases hct : c = t
    · subst hct
      have h1 : closeUpA (n + 1) c c = some ([], c) := by simp [closeUpA]
      rw [h1, if_pos (self_mem_truncChain c), belowChain_self]
    · by_cases hc : c = ""
      · subst hc
        have h1 : closeUpA (n + 1) "" t = none := by simp [closeUpA, hct]
        rw [h1, if_neg]
        intro hmem
        rw [truncChain_eq] at hmem
        simp at hmem
        exact hct hmem.symm
      · have hlt := jsParent_length_lt c hc
        have h1 : closeUpA (n + 1) c t =
            match closeUpA n (jsParent c) t with
            | some (cs, c') => some (c :: cs, c')
            | none => none := by
          simp [closeUpA, hct, hc]
        rw [h1, ih (jsParent c) t (by omega)]
        by_cases hmem : t ∈ truncChain (jsParent c)
        · rw [if_pos hmem,
            if_pos (by rw [truncChain_cons c hc]; exact List.mem_cons_of_mem _ hmem),
            belowChain_cons hc hct]
        · rw [if_neg hmem, if_neg]
          intro hin
          rw [truncChain_cons c hc, List.mem_cons] at hin
          rcases hin with hin | hin
          · exact hct hin.symm
          · exact hmem hin

theorem closeUp_eq (cursor target : String) :
    closeUp cursor target =
      if target ∈ truncChain cursor then some (belowChain cursor target, target)
      else none :=
  closeUpA_eq _ _ _ (by omega)

/-- The build-up loop of `navInFileManager`
(`while (path !== this.curDirPath) { paths.unshift(path); path = parent }`):
returns the collected list (closest-to-cursor first), or `none` when the loop
never reaches `cursor` (the source loops forever). -/
def ascendA : Nat → String → String → Option (List String)
  | 0, _, _ => none
  | n + 1, path, cursor =>
    if path = cursor then some []
    else if path = "" then none
    else
      match ascendA n (jsParent path) cursor with
      | some l => some (l ++ [path])
      | none => none

def ascend (path cursor : String) : Option (List String) :=
  ascendA (path.length + 1) path cursor

theorem ascendA_eq : ∀ (n : Nat) (path cursor : String), path.length < n →
    ascendA n path cursor =
      if cursor ∈ truncChain path then some ((belowChain path cursor).reverse)
      else none := by
  intro n
  induction n with
  | zero => intro p c h; omega
  | succ n ih =>
    intro p c h
    by_cases hpc : p = c
    · subst hpc
      have h1 : ascendA (n + 1) p p = some [] := by simp [ascendA]
      rw [h1, if_pos (self_mem_truncChain p), belowChain_self]
      rfl
    · by_cases hp : p = ""
      · subst hp
        have h1 : ascendA (n + 1) "" c = none := by simp [ascendA, hpc]
        rw [h1, if_neg]
        intro hmem
        rw [truncChain_eq] at hmem
        simp at hmem
        exact hpc hmem.symm
      · have hlt := jsParent_length_lt p hp
        have h1 : ascendA (n + 1) p c =
            match ascendA n (jsParent p) c with
            | some l => some (l ++ [p])
            | none => none := by
          simp [ascendA, hpc, hp]
        rw [h1, ih (jsParent p) c (by omega)]
        by_cases hmem : c ∈ truncChain (jsParent p)
        · rw [if_pos hmem,
            if_pos (by rw [truncChain_cons p hp]; exact List.mem_cons_of_mem _ hmem),
            belowChain_cons hp hpc, List.reverse_cons]
        · rw [if_neg hmem, if_neg]
          intro hin
          rw [truncChain_cons p hp, List.mem_cons] at hin
          rcases hin with hin | hin
          · exact hpc hin.symm
          · exact hmem hin

theorem ascend_eq (path cursor : String) :
    ascend path cursor =
      if cursor ∈ truncChain path then some ((belowChain path cursor).reverse)
      else none :=
  ascendA_eq _ _ _ (by omega)

/-- The ancestor search of `destroyNav`
(`do { if (curDirPath.includes(path)) break; path = parent } while (path)`). -/
def findAncestorA : Nat → String → String → String
  | 0, _, path => path
  | n + 1, cursor, path =>
    if jsIncludes cursor path then path
    else
      let p := jsParent path
      if p = "" then "" else findAncestorA n cursor p

def findAncestor (cursor path : String) : String :=
  findAncestorA (path.length + 1) cursor path

theorem jsIncludes_empty (s : String) : jsIncludes s "" = true := by
  unfold jsIncludes
  show hasSub s.data [] = true
  unfold hasSub
  simp

theorem isPrefixOf_self_check : ∀ (l : List Char), l.isPrefixOf l = true := by
  intro l
  induction l with
  | nil => rfl
  | cons c t ih => simp [List.isPrefixOf_cons₂, ih]

theorem jsIncludes_self (s : String) : jsIncludes s s = true := by
  unfold jsIncludes
  unfold hasSub
  rw [if_pos (isPrefixOf_self_check s.data)]

theorem isPrefixOf_length_le : ∀ (p l : List Char), p.isPrefixOf l = true →
    p.length ≤ l.length := by
  intro p
  induction p with
  | nil => intro l _; simp
  | cons c t ih =>
    intro l h
    cases l with
    | nil => simp [List.isPrefixOf_cons_nil] at h
    | cons b bs =>
      rw [List.isPrefixOf_cons₂, Bool.and_eq_true] at h
      have := ih bs h.2
      simp
      omega

theorem hasSub_length_le : ∀ (l pat : List Char), hasSub l pat = true →
    pat.length ≤ l.length := by
  intro l
  induction l with
  | nil =>
    intro pat h
    unfold hasSub at h
    split at h
    · next hpre => exact isPrefixOf_length_le _ _ hpre
    · simp at h
  | cons c t ih =>
    intro pat h
    unfold hasSub at h
    split at h
    · next hpre => exact isPrefixOf_length_le _ _ hpre
    · have := ih pat h
      simp
      omega

theorem jsIncludes_length_le (s t : String) (h : jsIncludes s t = true) :
    t.length ≤ s.length :=
  hasSub_length_le s.data t.data h

theorem findAncestorA_mem : ∀ (n : Nat) (cursor path : String), path.length < n →
    findAncestorA n cursor path ∈ truncChain path := by
  intro n
  induction n with
  | zero => intro c p h; omega
  | succ n ih =>
    intro c p h
    by_cases hinc : jsIncludes c p = true
    · simp only [findAncestorA, if_pos hinc]
      exact self_mem_truncChain p
    · have hp : p ≠ "" := by
        intro h0; subst h0; exact hinc (jsIncludes_empty c)
      have hlt := jsParent_length_lt p hp
      simp only [findAncestorA, if_neg hinc]
      by_cases hpp : jsParent p = ""
      · rw [if_pos hpp]
        exact empty_mem_truncChain p
      · rw [if_neg hpp]
        have := ih c (jsParent p) (by omega)
        rw [truncChain_cons p hp]
        exact List.mem_cons_of_mem _ this

theorem findAncestor_mem (cursor path : String) :
    findAncestor cursor path ∈ truncChain path :=
  findAncestorA_mem _ _ _ (by omega)

theorem mem_truncChain_eq_of_length {p q : String} (h : q ∈ truncChain p)
    (hlen : q.length = p.length) : q = p := by
  by_cases hp : p = ""
  · subst hp
    rw [truncChain_eq] at h
    simpa using h
  · rw [truncChain_cons p hp, List.mem_cons] at h
    rcases h with h | h
    · exact h
    · have h1 := mem_truncChain_length _ _ h
      have h2 := jsParent_length_lt p hp
      omega

theorem findAncestorA_self_of_mem : ∀ (n : Nat) (cursor path : String),
    path.length < n → cursor ∈ truncChain path →
    findAncestorA n cursor path = cursor := by
  intro n
  induction n with
  | zero => intro c p h _; omega
  | succ n ih =>
    intro c p h hmem
    by_cases hinc : jsIncludes c p = true
    · simp only [findAncestorA, if_pos hinc]
      have h1 := mem_truncChain_length _ _ hmem
      have h2 := jsIncludes_length_le c p hinc
      exact (mem_truncChain_eq_of_length hmem (by omega)).symm
    · have hcp : c ≠ p := by
        intro he; subst he; exact hinc (jsIncludes_self c)
      obtain ⟨hp, hmem'⟩ := mem_truncChain_of_ne hmem hcp
      have hlt := jsParent_length_lt p hp
      simp only [findAncestorA, if_neg hinc]
      by_cases hpp : jsParent p = ""
      · rw [if_pos hpp]
        rw [hpp] at hmem'
        rw [truncChain_eq] at hmem'
        simp at hmem'
        exact hmem'.symm
      · rw [if_neg hpp]
        exact ih c (jsParent p) (by omega) hmem'

theorem findAncestor_self_of_mem {cursor path : String}
    (h : cursor ∈ truncChain path) : findAncestor cursor path = cursor :=
  findAncestorA_self_of_mem _ _ _ (by omega) h

/-- Request-gate state of the `Cartmin` instance (constructor.js lines 88-90). -/
structure GateState where
  allowedXhrPostData : Option String
  blockRepetitiveXhr : Bool
  lastXhrPostData : Option String
deriving DecidableEq, Repr

/-- `allowXhr(allowed, block)` (constructor.js lines 179-183). -/
def allowXhrG (allowed : Option String) (block : Bool) : GateState :=
  { allowedXhrPostData := allowed, blockRepetitiveXhr := block, lastXhrPostData := none }

/-- `blockRepXhr(block)` (constructor.js lines 190-193). -/
def blockRepXhrG (g : GateState) (block : Bool) : GateState :=
  { g with lastXhrPostData := none, blockRepetitiveXhr := block }

/-- What the request-interception handler does with one tracked request
(XHR, POST, file-manager-files URL): forward it to the network or answer it
with an empty synthetic response. -/
inductive ReqAction where
  | forward
  | respondEmpty
deriving DecidableEq, Repr

/-- The tracked-request branch of the `page.on('request')` handler installed by
`launch` (constructor.js lines 133-150), as a state transition on the gate. -/
def onTrackedRequest (g : GateState) (payload : String) : ReqAction × GateState :=
  if some payload = g.allowedXhrPostData then
    let last := g.lastXhrPostData
    let g' := { g with lastXhrPostData := g.allowedXhrPostData }
    if g'.blockRepetitiveXhr && (some payload == last) then (.respondEmpty, g')
    else (.forward, g')
  else (.respondEmpty, g)

/-- Process a sequence of tracked requests through the gate. -/
def runGate (g : GateState) : List String → List ReqAction × GateState
  | [] => ([], g)
  | p :: ps =>
    let (a, g') := onTrackedRequest g p
    let (as, g'') := runGate g' ps
    (a :: as, g'')

/-- Observable file-manager UI actions issued by the reconciler. -/
inductive NavAction where
  | close (path : String)
  | click (path : String) (count : Nat) (confirmed : Bool)
  | arm (key : Option String)
deriving DecidableEq, Repr

/-- Failures surfaced by `navInFileManager`. -/
inductive NavError where
  | closedFM
  | timeout (ms : Nat)
deriving DecidableEq, Repr

/-- The `Cartmin` instance fields relevant to the file-manager engine
(constructor.js lines 83-92). -/
structure CartminState where
  browserOpen : Bool
  fileManagerFrame : Bool
  curDirPath : String
  curDirFiles : Option (List String)
  gate : GateState
deriving DecidableEq, Repr

/-- Field values set by the `Cartmin` constructor (constructor.js lines 83-92). -/
def initCartmin : CartminState :=
  { browserOpen := false, fileManagerFrame := false, curDirPath := "",
    curDirFiles := none, gate := ⟨none, false, none⟩ }

/-- `openFileManager` (file-manager.js lines 20-30): no-op when a frame is
already open; otherwise acquires the frame.  It does not touch `curDirPath`. -/
def openFileManager (s : CartminState) : CartminState :=
  if s.fileManagerFrame then s else { s with fileManagerFrame := true }

/-- `closeFileManager` (file-manager.js lines 35-42). -/
def closeFileManager (s : CartminState) : CartminState :=
  if s.fileManagerFrame then { s with fileManagerFrame := false } else s

/-- The unconditional `this.fileManagerFrame = null` performed by
`uploadFileToPage` after the frame-closing double click
(file-manager.js lines 378-394). -/
def uploadFileClosesFrame (s : CartminState) : CartminState :=
  { s with fileManagerFrame := false }

/-- `close` (constructor.js lines 200-215): resets the session fields but
leaves `curDirPath` untouched. -/
def closeBrowser (s : CartminState) : CartminState :=
  if s.browserOpen then
    { s with
      browserOpen := false,
      fileManagerFrame := false,
      curDirFiles := none,
      gate := ⟨none, false, none⟩ }
  else s

/-- `navInFileManager(path)` (file-manager.js lines 169-203) together with
`destroyNav` (lines 211-228) and the gate arming of `getDirFilesPromise`
(lines 122-131).  `fetch` is the outcome of the listing wait: `some files`
when the gated listing response arrives, `none` when the 30 s timeout fires.
The result is the issued action trace, the final state and the error, if any;
the outer `none` models divergence of a source loop. -/
def navInFileManager (s : CartminState) (target : String)
    (fetch : Option (List String)) :
    Option (List NavAction × CartminState × Option NavError) :=
  if s.fileManagerFrame = false then some ([], s, some .closedFM)
  else if s.curDirPath = target then some ([], s, none)
  else
    let _g1 := allowXhrG none true
    let a := findAncestor s.curDirPath target
    (closeUp s.curDirPath a).bind fun cp =>
      let closes := (cp.1 ++ [a]).map NavAction.close
      (ascend target a).bind fun l =>
        let full := a :: l
        let lastDir := full.getLastD a
        let opens := full.dropLast
        let openActs := opens.map (fun p => NavAction.click p 2 (p != ""))
        let key := payloadKey lastDir
        let g2 := allowXhrG (some key) true
        let cnt := if lastDir = "" then 2 else 1
        let finalClick := NavAction.click lastDir cnt (lastDir != "")
        let tr := NavAction.arm none :: closes ++ openActs ++
          [NavAction.arm (some key), finalClick]
        match fetch with
        | none =>
          some (tr,
            { s with
              curDirPath := opens.getLastD a,
              gate := g2 },
            some (.timeout 30000))
        | some files =>
          some (tr,
            { s with
              curDirPath := lastDir,
              curDirFiles := some files,
              gate := blockRepXhrG g2 false }, none)

/-- Paths of the `closeDir` actions of a trace, in order. -/
def closesOf : List NavAction → List String
  | [] => []
  | .close p :: tr => p :: closesOf tr
  | _ :: tr => closesOf tr

/-- Paths of the click actions of a trace, in order. -/
def clicksOf : List NavAction → List String
  | [] => []
  | .click p _ _ :: tr => p :: clicksOf tr
  | _ :: tr => clicksOf tr

/-- Click actions of a trace with their repeat count and whether they went
through the acknowledgement-confirmation loop. -/
def clickActsOf : List NavAction → List (String × Nat × Bool)
  | [] => []
  | .click p n c :: tr => (p, n, c) :: clickActsOf tr
  | _ :: tr => clickActsOf tr

theorem closesOf_append (l1 l2 : List NavAction) :
    closesOf (l1 ++ l2) = closesOf l1 ++ closesOf l2 := by
  induction l1 with
  | nil => rfl
  | cons a tr ih => cases a <;> simp [closesOf, ih]

theorem clicksOf_append (l1 l2 : List NavAction) :
    clicksOf (l1 ++ l2) = clicksOf l1 ++ clicksOf l2 := by
  induction l1 with
  | nil => rfl
  | cons a tr ih => cases a <;> simp [clicksOf, ih]

theorem clickActsOf_append (l1 l2 : List NavAction) :
    clickActsOf (l1 ++ l2) = clickActsOf l1 ++ clickActsOf l2 := by
  induction l1 with
  | nil => rfl
  | cons a tr ih => cases a <;> simp [clickActsOf, ih]

theorem closesOf_map_close (ps : List String) :
    closesOf (ps.map NavAction.close) = ps := by
  induction ps with
  | nil => rfl
  | cons p ps ih => simp [closesOf, ih]

theorem closesOf_map_click (ps : List String) :
    closesOf (ps.map (fun p => NavAction.click p 2 (p != ""))) = [] := by
  induction ps with
  | nil => rfl
  | cons p ps ih => simp [closesOf, ih]

theorem clicksOf_map_close (ps : List String) :
    clicksOf (ps.map NavAction.close) = [] := by
  induction ps with
  | nil => rfl
  | cons p ps ih => simp [clicksOf, ih]

theorem clicksOf_map_click (ps : List String) :
    clicksOf (ps.map (fun p => NavAction.click p 2 (p != ""))) = ps := by
  induction ps with
  | nil => rfl
  | cons p ps ih => simp [clicksOf, ih]

theorem clickActsOf_map_close (ps : List String) :
    clickActsOf (ps.map NavAction.close) = [] := by
  induction ps with
  | nil => rfl
  | cons p ps ih => simp [clickActsOf, ih]

theorem clickActsOf_map_click (ps : List String) :
    clickActsOf (ps.map (fun p => NavAction.click p 2 (p != ""))) =
      ps.map (fun p => (p, 2, p != "")) := by
  induction ps with
  | nil => rfl
  | cons p ps ih => simp [clickActsOf, ih]

/-- The trace `navInFileManager` issues when the reconciliation loops
terminate (written out through the `belowChain`/`findAncestor`
characterisations of the source loops). -/
def reconcileTrace (c t : String) : List NavAction :=
  NavAction.arm none ::
    (belowChain c (findAncestor c t) ++ [findAncestor c t]).map NavAction.close ++
    ((findAncestor c t :: (belowChain t (findAncestor c t)).reverse).dropLast.map
      (fun p => NavAction.click p 2 (p != ""))) ++
    [NavAction.arm (some (payloadKey t)),
      NavAction.click t (if t = "" then 2 else 1) (t != "")]

/-- The cursor position reached when the final listing wait fails: the last
path the build-up loop advanced to (the common ancestor when the loop body
never ran). -/
def lastAdvanced (c t : String) : String :=
  ((findAncestor c t :: (belowChain t (findAncestor c t)).reverse).dropLast).getLastD
    (findAncestor c t)

theorem navInFileManager_eq_of_mem (s : CartminState) (t : String)
    (f : Option (List String))
    (hframe : s.fileManagerFrame = true) (hne : ¬ s.curDirPath = t)
    (hmem : findAncestor s.curDirPath t ∈ truncChain s.curDirPath) :
    navInFileManager s t f =
      some (reconcileTrace s.curDirPath t,
        match f with
        | some files =>
          ({ s with
             curDirPath := t,
             curDirFiles := some files,
             gate := ⟨some (payloadKey t), false, none⟩ }, none)
        | none =>
          ({ s with
             curDirPath := lastAdvanced s.curDirPath t,
             gate := ⟨some (payloadKey t), true, none⟩ },
           some (NavError.timeout 30000))) := by
  have hmt : findAncestor s.curDirPath t ∈ truncChain t := findAncestor_mem _ t
  have hlast : ((belowChain t (findAncestor s.curDirPath t)).reverse).getLastD
      (findAncestor s.curDirPath t) = t := belowChain_reverse_getLastD t _ hmt
  unfold navInFileManager
  rw [hframe, if_neg (by decide : ¬ (true = false)), if_neg hne]
  dsimp only
  rw [closeUp_eq, if_pos hmem, Option.some_bind]
  dsimp only
  rw [ascend_eq, if_pos hmt, Option.some_bind]
  try dsimp only
  rw [List.getLastD_cons, hlast]
  cases f with
  | none =>
    simp [reconcileTrace, lastAdvanced, blockRepXhrG, allowXhrG, hlast]
  | some files =>
    simp [reconcileTrace, blockRepXhrG, allowXhrG]

theorem navInFileManager_eq_none (s : CartminState) (t : String)
    (f : Option (List String))
    (hframe : s.fileManagerFrame = true) (hne : ¬ s.curDirPath = t)
    (hmem : findAncestor s.curDirPath t ∉ truncChain s.curDirPath) :
    navInFileManager s t f = none := by
  unfold navInFileManager
  rw [hframe, if_neg (by decide : ¬ (true = false)), if_neg hne]
  dsimp only
  rw [closeUp_eq, if_neg hmem, Option.none_bind]

theorem navInFileManager_ok_state (s : CartminState) (t : String)
    (f : Option (List String)) (tr : List NavAction) (s' : CartminState)
    (h : navInFileManager s t f = some (tr, s', none)) :
    s'.curDirPath = t ∧ s'.fileManagerFrame = true ∧
      s.fileManagerFrame = true := by
  by_cases hframe : s.fileManagerFrame = true
  · by_cases hne : s.curDirPath = t
    · have hval : navInFileManager s t f = some ([], s, none) := by
        unfold navInFileManager
        rw [hframe, if_neg (by decide : ¬ (true = false)), if_pos hne]
      rw [hval] at h
      injection h with h'
      have h2 := congrArg (fun x => x.2.1) h'
      dsimp only at h2
      rw [← h2]
      exact ⟨hne, hframe, hframe⟩
    · by_cases hmem : findAncestor s.curDirPath t ∈ truncChain s.curDirPath
      · rw [navInFileManager_eq_of_mem s t f hframe hne hmem] at h
        cases f with
        | none =>
          injection h with h'
          have h3 := congrArg (fun x => x.2.2) h'
          dsimp only at h3
          simp at h3
        | some files =>
          injection h with h'
          have h2 := congrArg (fun x => x.2.1) h'
          dsimp only at h2
          rw [← h2]
          exact ⟨rfl, hframe, hframe⟩
      · rw [navInFileManager_eq_none s t f hframe hne hmem] at h
        cases h
  · have hf : s.fileManagerFrame = false := by
      cases hb : s.fileManagerFrame
      · rfl
      · exact absurd hb hframe
    have hval : navInFileManager s t f = some ([], s, some .closedFM) := by
      unfold navInFileManager
      rw [hf, if_pos rfl]
    rw [hval] at h
    injection h with h'
    have h3 := congrArg (fun x => x.2.2) h'
    dsimp only at h3
    simp at h3

example :
    navInFileManager (openFileManager initCartmin) "2024/spring" (some ["f.png"]) =
      some ([NavAction.arm none, NavAction.close "",
             NavAction.click "" 2 false, NavAction.click "2024" 2 true,
             NavAction.arm (some "directory=2024%2Fspring"),
             NavAction.click "2024/spring" 1 true],
        { browserOpen := false, fileManagerFrame := true,
          curDirPath := "2024/spring", curDirFiles := some ["f.png"],
          gate := ⟨some "directory=2024%2Fspring", false, none⟩ }, none) := by
  decide

/-- Characters a `name` or `format` token of the file-name extraction regex
may contain (`[^\\/\.]` in `getFileIndexInFileManager`). -/
def fileTokenChar (c : Char) : Bool := !(c = '\\' || c = '/' || c = '.')

/-- `fileName.match(/(([^\\\/\.]+)\.)?([^\\\/\.]+)$/)?.[0]` of
`getFileIndexInFileManager` (file-manager.js line 321): the trailing
`name.format` (or bare `name`) component, when one exists. -/
def clearedFileName (s : String) : Option String :=
  let r := s.data.reverse
  let e := r.takeWhile fileTokenChar
  if e.isEmpty then none
  else
    match r.dropWhile fileTokenChar with
    | '.' :: rest =>
      let nm := rest.takeWhile fileTokenChar
      if nm.isEmpty then some (String.mk e.reverse)
      else some (String.mk (nm.reverse ++ '.' :: e.reverse))
    | _ => some (String.mk e.reverse)

example : clearedFileName "dog.jpg" = some "dog.jpg" := by decide
example : clearedFileName "do" = some "do" := by decide
example : clearedFileName "/tmp/a.png" = some "a.png" := by decide
example : clearedFileName "a.b.c" = some "b.c" := by decide
example : clearedFileName "" = none := by decide

/-- JS `textContent.trim()`. -/
def jsTrim (s : String) : String :=
  String.mk (((s.data.dropWhile Char.isWhitespace).reverse.dropWhile
    Char.isWhitespace).reverse)

/-- The scan of `getFileIndexInFileManagerDOM` (file-manager.js lines 299-309)
over the rendered entry texts, carrying the running index. -/
def domIndexAux (fileName : String) : List String → Nat → Nat
  | [], _ => 0
  | t :: rest, i =>
    if jsStartsWith (jsTrim t) fileName then i + 1
    else domIndexAux fileName rest (i + 1)

/-- `getFileIndexInFileManagerDOM(listSelector, fileName)`: `index + 1` of the
first rendered entry whose trimmed text starts with `fileName`, `0` if none. -/
def getFileIndexInFileManagerDOM (domTexts : List String)
    (fileName : String) : Nat :=
  domIndexAux fileName domTexts 0

/-- `getFileIndexInFileManager(fileName)` (file-manager.js lines 319-330):
extract the trailing `name.format`, fail fast with `-1` on the cached listing,
otherwise wait for a matching DOM entry and return its index.  `domTexts` are
the trimmed-to-be texts of the rendered entries; the result is `none` when the
DOM wait can never see a match (the source's `waitForFunction` times out). -/
def getFileIndexInFileManager (curDirFiles domTexts : List String)
    (fileName : String) : Option Int :=
  match clearedFileName fileName with
  | none => some (-1)
  | some c =>
    if (curDirFiles.find? (fun nm => jsStartsWith nm c)).isNone then some (-1)
    else
      let k := getFileIndexInFileManagerDOM domTexts c
      if k = 0 then none else some ((k : Int) - 1)

/-- `uploadFilesToFileManager(paths)` (file-manager.js lines 259-287),
abstracted over the local filesystem (`fs.existsSync`) and the upload-dialog
verdict (`closeBrowserDialogPromise` checking the success message).  Returns
the paths for which a remote upload was attempted (file chooser plus dialog
race) and the paths reported uploaded, both in input order. -/
def uploadFilesToFileManager (fsExistsSync dialogOk : String → Bool) :
    List String → List String × List String
  | [] => ([], [])
  | p :: rest =>
    if fsExistsSync p then
      let r := uploadFilesToFileManager fsExistsSync dialogOk rest
      (p :: r.1, if dialogOk p then p :: r.2 else r.2)
    else uploadFilesToFileManager fsExistsSync dialogOk rest

/-- Number of click issuances of the `do { ... } while (!isClicked)` loop of
`clickDir` (file-manager.js lines 93-99): each physical click races the
one-shot acknowledgement listener of `isClickedPromise` against its 50 ms
deadline, consuming the next outcome of `acks`; `none` when the outcome trace
is exhausted without an acknowledgement (the source would keep retrying). -/
def clickAttempts : List Bool → Option Nat
  | [] => none
  | ack :: rest => if ack then some 1 else (clickAttempts rest).map (· + 1)

/-- Click issuances of `clickDir(path, clickCount)` (file-manager.js lines
76-100): the root selector (`path = ""`) is clicked once without the
confirmation loop; any other selector enters the retry loop. -/
def clickDirClicks (path : String) (acks : List Bool) : Option Nat :=
  if path = "" then some 1 else clickAttempts acks

/-- A `getLastD`-characterised list is recovered by `dropLast` plus its last
element. -/
theorem dropLast_cons_getLastD {α : Type} : ∀ (l : List α) (d x : α),
    l.getLastD d = x → (d :: l).dropLast ++ [x] = d :: l := by
  intro l
  induction l with
  | nil =>
    intro d x h
    simp at h
    simp [h]
  | cons y ys ih =>
    intro d x h
    rw [List.getLastD_cons] at h
    have := ih y x h
    simp only [List.dropLast_cons₂, List.cons_append]
    rw [this]

theorem replaceFirst_no_slash : ∀ (as bs : List Char), as.contains '/' = false →
    replaceFirstAux ("%2F".data) (as ++ '/' :: bs) (['/'] : List Char) =
      as ++ "%2F".data ++ bs := by
  intro as
  induction as with
  | nil =>
    intro bs _
    show replaceFirstAux _ ('/' :: bs) ['/'] = _
    unfold replaceFirstAux
    rw [if_pos]
    · simp
    · rw [List.isPrefixOf_cons₂]
      simp
  | cons c cs ih =>
    intro bs h
    rw [List.contains_cons, Bool.or_eq_false_iff] at h
    obtain ⟨h1, h2⟩ := h
    show replaceFirstAux _ (c :: (cs ++ '/' :: bs)) ['/'] = _
    unfold replaceFirstAux
    rw [if_neg, ih bs h2]
    · simp
    · rw [List.isPrefixOf_cons₂]
      simp [h1]

/-- C3: a tracked request (XHR, POST, file-manager-files URL) is forwarded by
the request gate only when the gate is armed with exactly its payload; with
duplicate-blocking on, the immediately following request with the same payload
is answered with an empty synthetic response; and a gate disarmed with
`allowXhr(null)` forwards no tracked request at all. -/
theorem claim_C3 :
    (∀ (g : GateState) (p : String),
      (onTrackedRequest g p).1 = ReqAction.forward →
      g.allowedXhrPostData = some p) ∧
    (∀ (g : GateState) (p : String), g.blockRepetitiveXhr = true →
      (onTrackedRequest g p).1 = ReqAction.forward →
      (onTrackedRequest (onTrackedRequest g p).2 p).1 = ReqAction.respondEmpty) ∧
    (∀ (K : String),
      runGate (allowXhrG (some K) true) [K, K] =
        ([ReqAction.forward, ReqAction.respondEmpty], ⟨some K, true, some K⟩)) ∧
    (∀ (b : Bool) (ps : List String),
      ((runGate (allowXhrG none b) ps).1.all
        (fun r => r == ReqAction.respondEmpty)) = true) := by
  refine ⟨?_, ?_, ?_, ?_⟩
  · intro g p h
    unfold onTrackedRequest at h
    by_cases ha : some p = g.allowedXhrPostData
    · exact ha.symm
    · rw [if_neg ha] at h
      cases h
  · intro g p hb h
    have ha : some p = g.allowedXhrPostData := by
      by_contra hna
      unfold onTrackedRequest at h
      rw [if_neg hna] at h
      cases h
    have hstate : (onTrackedRequest g p).2 =
        { g with lastXhrPostData := g.allowedXhrPostData } := by
      unfold onTrackedRequest
      rw [if_pos ha]
      dsimp only
      by_cases hdup :
          (g.blockRepetitiveXhr && (some p == g.lastXhrPostData)) = true
      · rw [if_pos hdup]
      · rw [if_neg hdup]
    have hsecond : onTrackedRequest
        { g with lastXhrPostData := g.allowedXhrPostData } p =
        (ReqAction.respondEmpty,
          { g with lastXhrPostData := g.allowedXhrPostData }) := by
      unfold onTrackedRequest
      rw [if_pos (show some p =
        ({ g with lastXhrPostData := g.allowedXhrPostData } :
          GateState).allowedXhrPostData from ha)]
      dsimp only
      rw [if_pos]
      show (g.blockRepetitiveXhr && (some p == g.allowedXhrPostData)) = true
      rw [hb, ← ha]
      simp
    rw [hstate, hsecond]
  · intro K
    simp [runGate, onTrackedRequest, allowXhrG]
  · intro b ps
    induction ps with
    | nil => rfl
    | cons p ps ih =>
      have hstep : onTrackedRequest (allowXhrG none b) p =
          (ReqAction.respondEmpty, allowXhrG none b) := by
        unfold onTrackedRequest allowXhrG
        rw [if_neg]
        simp
      unfold runGate
      rw [hstep]
      simpa using ih

/-- C3 witness: instantiation of the gate properties at payload `"K"`. -/
theorem claim_C3_witness :
    (⟨some "K", true, none⟩ : GateState).allowedXhrPostData = some "K" ∧
    (onTrackedRequest (onTrackedRequest ⟨some "K", true, none⟩ "K").2 "K").1 =
      ReqAction.respondEmpty := by
  constructor
  · exact claim_C3.1 ⟨some "K", true, none⟩ "K" (by decide)
  · exact claim_C3.2.1 ⟨some "K", true, none⟩ "K" (by decide) (by decide)

/-- C5 (amended): with the cached listing `["cat.png", "dog.jpg"]` rendered in
the DOM, `getFileIndexInFileManager` finds `"dog"`, `"dog.jpg"` and also the
bare prefix `"do"` (the listing and DOM checks use `startsWith`, so any
leading prefix of a leaf token matches), each resolving to the index of
`"dog.jpg"`; `"frog.png"` yields the `-1` not-found sentinel from the cached
listing alone, for every DOM content (no DOM wait is consulted). -/
theorem claim_C5 :
    getFileIndexInFileManager ["cat.png", "dog.jpg"] ["cat.png", "dog.jpg"]
      "dog" = some 1 ∧
    getFileIndexInFileManager ["cat.png", "dog.jpg"] ["cat.png", "dog.jpg"]
      "dog.jpg" = some 1 ∧
    getFileIndexInFileManager ["cat.png", "dog.jpg"] ["cat.png", "dog.jpg"]
      "do" = some 1 ∧
    (∀ domTexts, getFileIndexInFileManager ["cat.png", "dog.jpg"] domTexts
      "frog.png" = some (-1)) := by
  refine ⟨by decide, by decide, by decide, ?_⟩
  intro domTexts
  rfl

/-- C5 counterexample: the claim asserts `"do"` must not find a match, but the
code's `startsWith` check accepts it and resolves the index of `"dog.jpg"`. -/
theorem claim_C5_counterexample :
    getFileIndexInFileManager ["cat.png", "dog.jpg"] ["cat.png", "dog.jpg"]
      "do" = some 1 ∧
    (some 1 : Option Int) ≠ some (-1) := by
  constructor
  · decide
  · decide

/-- C7 (amended): the cursor is set to `""` once, by the `Cartmin`
constructor; opening a file-manager session does not reinitialise it, and
every way a session ends (`closeFileManager`, the upload-triggered frame
close, browser `close`) only nulls the frame handle — the cursor keeps its
last value and no terminal closed marker is ever written to it. -/
theorem claim_C7 :
    initCartmin.curDirPath = "" ∧
    (∀ s, (openFileManager s).curDirPath = s.curDirPath) ∧
    (∀ s, (closeFileManager s).curDirPath = s.curDirPath ∧
      (closeFileManager s).fileManagerFrame = false) ∧
    (∀ s, (uploadFileClosesFrame s).curDirPath = s.curDirPath ∧
      (uploadFileClosesFrame s).fileManagerFrame = false) ∧
    (∀ s, (closeBrowser s).curDirPath = s.curDirPath ∧
      (closeBrowser s).fileManagerFrame =
        (if s.browserOpen then false else s.fileManagerFrame)) := by
  refine ⟨rfl, ?_, ?_, ?_, ?_⟩
  · intro s
    by_cases h : s.fileManagerFrame <;> simp [openFileManager, h]
  · intro s
    by_cases h : s.fileManagerFrame <;> simp [closeFileManager, h]
  · intro s
    exact ⟨rfl, rfl⟩
  · intro s
    by_cases h : s.browserOpen <;> simp [closeBrowser, h]

/-- C7 counterexample: after navigating to `"a/b"`, closing the file manager
and reopening it leaves the cursor at `"a/b"` — it is neither invalidated to
a terminal closed marker on session end nor reset to `""` on session open. -/
theorem claim_C7_counterexample :
    navInFileManager (openFileManager initCartmin) "a/b" (some []) =
      some ([NavAction.arm none, NavAction.close "", NavAction.click "" 2 false,
        NavAction.click "a" 2 true, NavAction.arm (some "directory=a%2Fb"),
        NavAction.click "a/b" 1 true],
        ⟨false, true, "a/b", some [], ⟨some "directory=a%2Fb", false, none⟩⟩,
        none) ∧
    (closeFileManager
      ⟨false, true, "a/b", some [], ⟨some "directory=a%2Fb", false, none⟩⟩
      ).curDirPath = "a/b" ∧
    (openFileManager (closeFileManager
      ⟨false, true, "a/b", some [], ⟨some "directory=a%2Fb", false, none⟩⟩)
      ).curDirPath = "a/b" ∧
    (closeBrowser
      ⟨true, true, "a/b", some [], ⟨some "directory=a%2Fb", false, none⟩⟩
      ).curDirPath = "a/b" ∧
    ("a/b" : String) ≠ "" := by
  refine ⟨by decide, by decide, by decide, by decide, by decide⟩

/-- C8: `uploadFilesToFileManager` on `["/tmp/a.png", "/tmp/missing.png",
"/tmp/b.png"]`, where only `a.png` and `b.png` exist locally and their upload
dialogs report success, attempts and returns exactly those two paths in input
order; in general a path is attempted only when it exists locally, and is
appended to the result only when its dialog confirms success. -/
theorem claim_C8 :
    uploadFilesToFileManager
      (fun p => p == "/tmp/a.png" || p == "/tmp/b.png") (fun _ => true)
      ["/tmp/a.png", "/tmp/missing.png", "/tmp/b.png"] =
      (["/tmp/a.png", "/tmp/b.png"], ["/tmp/a.png", "/tmp/b.png"]) ∧
    (∀ (fe dok : String → Bool) (ps : List String) (p : String),
      p ∈ (uploadFilesToFileManager fe dok ps).1 → fe p = true) ∧
    (∀ (fe dok : String → Bool) (ps : List String) (p : String),
      p ∈ (uploadFilesToFileManager fe dok ps).2 →
        fe p = true ∧ dok p = true) := by
  refine ⟨by decide, ?_, ?_⟩
  · intro fe dok ps
    induction ps with
    | nil => intro p hp; simp [uploadFilesToFileManager] at hp
    | cons q qs ih =>
      intro p hp
      unfold uploadFilesToFileManager at hp
      by_cases hq : fe q = true
      · rw [if_pos hq] at hp
        dsimp only at hp
        rw [List.mem_cons] at hp
        rcases hp with rfl | hp
        · exact hq
        · exact ih p hp
      · rw [if_neg hq] at hp
        exact ih p hp
  · intro fe dok ps
    induction ps with
    | nil => intro p hp; simp [uploadFilesToFileManager] at hp
    | cons q qs ih =>
      intro p hp
      unfold uploadFilesToFileManager at hp
      by_cases hq : fe q = true
      · rw [if_pos hq] at hp
        dsimp only at hp
        by_cases hd : dok q = true
        · rw [if_pos hd] at hp
          rw [List.mem_cons] at hp
          rcases hp with rfl | hp
          · exact ⟨hq, hd⟩
          · exact ih p hp
        · rw [if_neg hd] at hp
          exact ih p hp
      · rw [if_neg hq] at hp
        exact ih p hp

/-- C8 witness: the membership properties at the successful path
`"/tmp/a.png"` of the scenario. -/
theorem claim_C8_witness :
    ((fun p => p == "/tmp/a.png" || p == "/tmp/b.png") "/tmp/a.png" = true) ∧
    ((fun _ : String => true) "/tmp/a.png" = true) :=
  claim_C8.2.2 (fun p => p == "/tmp/a.png" || p == "/tmp/b.png")
    (fun _ => true) ["/tmp/a.png", "/tmp/missing.png", "/tmp/b.png"]
    "/tmp/a.png" (by decide)

/-- C9: for a non-root directory selector whose acknowledgement listener
resolves `false` for the first two click races and `true` for the third, the
confirmation loop of `clickDir` issues exactly 3 clicks and returns. -/
theorem claim_C9 (path : String) (rest : List Bool) (h : path ≠ "") :
    clickDirClicks path ([false, false, true] ++ rest) = some 3 := by
  simp [clickDirClicks, h, clickAttempts]

/-- C9 witness: the three-attempt confirmation at selector `"2024"`. -/
theorem claim_C9_witness :
    clickDirClicks "2024" ([false, false, true] ++ []) = some 3 :=
  claim_C9 "2024" [] (by decide)

/-- C10: the payload key arming the response gate is built with
`path.replace('/', '%2F')`, a string-pattern `replace` that substitutes only
the first `/`; so for a target with two or more separators, such as
`"a/b/c"`, the armed key is `directory=a%2Fb/c`, not a fully encoded
payload. -/
theorem claim_C10 :
    (∀ (a b : String), a.data.contains '/' = false →
      payloadKey (a ++ "/" ++ b) = "directory=" ++ (a ++ "%2F" ++ b)) ∧
    payloadKey "a/b/c" = "directory=a%2Fb/c" ∧
    navInFileManager ⟨false, true, "", none, ⟨none, false, none⟩⟩ "a/b/c"
      (some []) =
      some ([NavAction.arm none, NavAction.close "", NavAction.click "" 2 false,
        NavAction.click "a" 2 true, NavAction.click "a/b" 2 true,
        NavAction.arm (some "directory=a%2Fb/c"),
        NavAction.click "a/b/c" 1 true],
        ⟨false, true, "a/b/c", some [], ⟨some "directory=a%2Fb/c", false, none⟩⟩,
        none) := by
  refine ⟨?_, by decide, by decide⟩
  intro a b h
  show "directory=" ++ jsReplaceFirst (a ++ "/" ++ b) "/" "%2F" = _
  unfold jsReplaceFirst
  have hd : (a ++ "/" ++ b).data = a.data ++ '/' :: b.data := by
    rw [String.data_append, String.data_append, List.append_assoc]
    rfl
  rw [hd]
  have hpat : ("/" : String).data = ['/'] := rfl
  rw [hpat, replaceFirst_no_slash a.data b.data h]
  apply congrArg (fun l => "directory=" ++ l)
  apply String.ext
  show a.data ++ "%2F".data ++ b.data = (a ++ "%2F" ++ b).data
  rw [String.data_append, String.data_append]

/-- C10 witness: the single-replacement equation at `a = "a"`, `b = "b/c"`. -/
theorem claim_C10_witness :
    payloadKey ("a" ++ "/" ++ "b/c") = "directory=" ++ ("a" ++ "%2F" ++ "b/c") :=
  claim_C10.1 "a" "b/c" (by decide)

theorem navInFileManager_ok_trace (s : CartminState) (t : String)
    (f : Option (List String)) (tr : List NavAction) (s' : CartminState)
    (h : navInFileManager s t f = some (tr, s', none))
    (hne : s.curDirPath ≠ t) :
    tr = reconcileTrace s.curDirPath t ∧ s'.curDirPath = t := by
  obtain ⟨-, -, hframe⟩ := navInFileManager_ok_state s t f tr s' h
  by_cases hmem : findAncestor s.curDirPath t ∈ truncChain s.curDirPath
  · rw [navInFileManager_eq_of_mem s t f hframe hne hmem] at h
    cases f with
    | none =>
      injection h with h'
      have h3 := congrArg (fun x => x.2.2) h'
      dsimp only at h3
      simp at h3
    | some files =>
      injection h with h'
      have h1 := congrArg (fun x => x.1) h'
      have h2 := congrArg (fun x => x.2.1) h'
      dsimp only at h1 h2
      refine ⟨h1.symm, ?_⟩
      rw [← h2]
  · rw [navInFileManager_eq_none s t f hframe hne hmem] at h
    cases h

theorem closesOf_reconcileTrace (c t : String) :
    closesOf (reconcileTrace c t) =
      belowChain c (findAncestor c t) ++ [findAncestor c t] := by
  unfold reconcileTrace
  simp only [closesOf, List.append_eq, closesOf_append, closesOf_map_close,
    closesOf_map_click, List.append_nil]

theorem clicksOf_reconcileTrace (c t : String) :
    clicksOf (reconcileTrace c t) =
      findAncestor c t :: (belowChain t (findAncestor c t)).reverse := by
  have hstep : clicksOf (reconcileTrace c t) =
      (findAncestor c t ::
        (belowChain t (findAncestor c t)).reverse).dropLast ++ [t] := by
    unfold reconcileTrace
    simp only [clicksOf, List.append_eq, clicksOf_append, clicksOf_map_close,
      clicksOf_map_click, List.append_nil, List.nil_append]
  rw [hstep]
  exact dropLast_cons_getLastD _ _ _
    (belowChain_reverse_getLastD t _ (findAncestor_mem c t))

theorem clickActsOf_reconcileTrace (c t : String) :
    clickActsOf (reconcileTrace c t) =
      ((findAncestor c t ::
        (belowChain t (findAncestor c t)).reverse).dropLast.map
        (fun p => (p, 2, p != ""))) ++
      [(t, if t = "" then 2 else 1, t != "")] := by
  unfold reconcileTrace
  simp only [clickActsOf, List.append_eq, clickActsOf_append,
    clickActsOf_map_close, clickActsOf_map_click, List.append_nil,
    List.nil_append]

/-- C1 (amended): after `navigate(P1)` succeeds, `navigate(P2)` closes exactly
the directories on P1 strictly below the common ancestor A *followed by a
defensive close of A itself*, and clicks open A itself and then the
directories on P2 strictly below A down to P2, in that order; A is computed
by truncating P2 at its last `/` until the result is a substring
(`String.includes`) of the cursor. -/
theorem claim_C1 (s : CartminState) (P1 P2 : String)
    (f1 f2 : Option (List String)) (tr1 tr2 : List NavAction)
    (s1 s2 : CartminState)
    (h1 : navInFileManager s P1 f1 = some (tr1, s1, none))
    (h2 : navInFileManager s1 P2 f2 = some (tr2, s2, none))
    (hne : P1 ≠ P2) :
    closesOf tr2 =
      belowChain P1 (findAncestor P1 P2) ++ [findAncestor P1 P2] ∧
    clicksOf tr2 =
      findAncestor P1 P2 :: (belowChain P2 (findAncestor P1 P2)).reverse ∧
    s2.curDirPath = P2 := by
  obtain ⟨hcur1, -, -⟩ := navInFileManager_ok_state s P1 f1 tr1 s1 h1
  have hne' : s1.curDirPath ≠ P2 := by rw [hcur1]; exact hne
  obtain ⟨htr, hcur2⟩ := navInFileManager_ok_trace s1 P2 f2 tr2 s2 h2 hne'
  rw [hcur1] at htr
  refine ⟨?_, ?_, hcur2⟩
  · rw [htr, closesOf_reconcileTrace]
  · rw [htr, clicksOf_reconcileTrace]

/-- C1 witness: instantiation at the run `"a/b"` then `"a/c"` from the root
cursor of a fresh session. -/
theorem claim_C1_witness :
    closesOf [NavAction.arm none, NavAction.close "a/b", NavAction.close "a",
        NavAction.click "a" 2 true, NavAction.arm (some "directory=a%2Fc"),
        NavAction.click "a/c" 1 true] =
      belowChain "a/b" (findAncestor "a/b" "a/c") ++
        [findAncestor "a/b" "a/c"] ∧
    clicksOf [NavAction.arm none, NavAction.close "a/b", NavAction.close "a",
        NavAction.click "a" 2 true, NavAction.arm (some "directory=a%2Fc"),
        NavAction.click "a/c" 1 true] =
      findAncestor "a/b" "a/c" ::
        (belowChain "a/c" (findAncestor "a/b" "a/c")).reverse ∧
    (⟨false, true, "a/c", some [],
      ⟨some "directory=a%2Fc", false, none⟩⟩ : CartminState).curDirPath =
      "a/c" :=
  claim_C1 (openFileManager initCartmin) "a/b" "a/c" (some []) (some [])
    [NavAction.arm none, NavAction.close "", NavAction.click "" 2 false,
      NavAction.click "a" 2 true, NavAction.arm (some "directory=a%2Fb"),
      NavAction.click "a/b" 1 true]
    [NavAction.arm none, NavAction.close "a/b", NavAction.close "a",
      NavAction.click "a" 2 true, NavAction.arm (some "directory=a%2Fc"),
      NavAction.click "a/c" 1 true]
    ⟨false, true, "a/b", some [], ⟨some "directory=a%2Fb", false, none⟩⟩
    ⟨false, true, "a/c", some [], ⟨some "directory=a%2Fc", false, none⟩⟩
    (by decide) (by decide) (by decide)

/-- C1 counterexample: navigating `"a/b"` then `"a/c"` (common ancestor
`"a"`), the code closes `["a/b", "a"]` — not only the directories strictly
below the ancestor — and clicks `["a", "a/c"]` — opening the ancestor itself
too — contradicting the claim's "no close or open of A itself". -/
theorem claim_C1_counterexample :
    navInFileManager
      ⟨false, true, "a/b", some [], ⟨some "directory=a%2Fb", false, none⟩⟩
      "a/c" (some []) =
      some ([NavAction.arm none, NavAction.close "a/b", NavAction.close "a",
        NavAction.click "a" 2 true, NavAction.arm (some "directory=a%2Fc"),
        NavAction.click "a/c" 1 true],
        ⟨false, true, "a/c", some [], ⟨some "directory=a%2Fc", false, none⟩⟩,
        none) ∧
    findAncestor "a/b" "a/c" = "a" ∧
    closesOf [NavAction.arm none, NavAction.close "a/b", NavAction.close "a",
      NavAction.click "a" 2 true, NavAction.arm (some "directory=a%2Fc"),
      NavAction.click "a/c" 1 true] = ["a/b", "a"] ∧
    (["a/b", "a"] : List String) ≠ ["a/b"] ∧
    clicksOf [NavAction.arm none, NavAction.close "a/b", NavAction.close "a",
      NavAction.click "a" 2 true, NavAction.arm (some "directory=a%2Fc"),
      NavAction.click "a/c" 1 true] = ["a", "a/c"] ∧
    (["a", "a/c"] : List String) ≠ ["a/c"] := by
  refine ⟨by decide, by decide, by decide, by decide, by decide, by decide⟩

/-- C2 (amended): in a successful `navigate(targetPath)` with a cursor move,
every path from the common ancestor (the ancestor itself included — the root,
when it is the ancestor, gets an unconfirmed click) up to the parent of the
target receives a double-activation click, and the final directory receives a
confirmed click with double activation when the target is the root `""` and a
*single* activation otherwise, raced against the listing fetch armed with the
target's payload key; from cursor `""` to `"2024/spring"` the code performs a
defensive close of the root, a double click on the root, a confirmed double
click on `"2024"`, and a confirmed *single* click on `"2024/spring"`, with
the fetch gated to `directory=2024%2Fspring`. -/
theorem claim_C2 (s : CartminState) (t : String) (f : Option (List String))
    (tr : List NavAction) (s' : CartminState)
    (h : navInFileManager s t f = some (tr, s', none))
    (hne : s.curDirPath ≠ t) :
    clickActsOf tr =
      ((findAncestor s.curDirPath t ::
        (belowChain t (findAncestor s.curDirPath t)).reverse).dropLast.map
        (fun p => (p, 2, p != ""))) ++
      [(t, if t = "" then 2 else 1, t != "")] ∧
    NavAction.arm (some (payloadKey t)) ∈ tr ∧
    navInFileManager ⟨false, true, "", none, ⟨none, false, none⟩⟩
      "2024/spring" (some ["f.png"]) =
      some ([NavAction.arm none, NavAction.close "",
        NavAction.click "" 2 false, NavAction.click "2024" 2 true,
        NavAction.arm (some "directory=2024%2Fspring"),
        NavAction.click "2024/spring" 1 true],
        ⟨false, true, "2024/spring", some ["f.png"],
          ⟨some "directory=2024%2Fspring", false, none⟩⟩, none) := by
  obtain ⟨htr, -⟩ := navInFileManager_ok_trace s t f tr s' h hne
  refine ⟨?_, ?_, by decide⟩
  · rw [htr, clickActsOf_reconcileTrace]
  · rw [htr]
    unfold reconcileTrace
    simp

/-- C2 witness: the click-shape equation instantiated at the scenario run
from `""` to `"2024/spring"`. -/
theorem claim_C2_witness :
    clickActsOf [NavAction.arm none, NavAction.close "",
      NavAction.click "" 2 false, NavAction.click "2024" 2 true,
      NavAction.arm (some "directory=2024%2Fspring"),
      NavAction.click "2024/spring" 1 true] =
      ((findAncestor "" "2024/spring" ::
        (belowChain "2024/spring" (findAncestor "" "2024/spring")).reverse
        ).dropLast.map (fun p => (p, 2, p != ""))) ++
      [("2024/spring", if "2024/spring" = "" then 2 else 1,
        "2024/spring" != "")] :=
  (claim_C2 ⟨false, true, "", none, ⟨none, false, none⟩⟩ "2024/spring"
    (some ["f.png"])
    [NavAction.arm none, NavAction.close "", NavAction.click "" 2 false,
      NavAction.click "2024" 2 true,
      NavAction.arm (some "directory=2024%2Fspring"),
      NavAction.click "2024/spring" 1 true]
    ⟨false, true, "2024/spring", some ["f.png"],
      ⟨some "directory=2024%2Fspring", false, none⟩⟩
    (by decide) (by decide)).1

/-- C2 counterexample: the scenario from `""` to `"2024/spring"` does perform
a close action (the defensive root close) and its clicks are a double
unconfirmed root click, a confirmed double click on `"2024"` and a confirmed
*single* click on `"2024/spring"` — not two confirmed double clicks with no
close. -/
theorem claim_C2_counterexample :
    navInFileManager ⟨false, true, "", none, ⟨none, false, none⟩⟩
      "2024/spring" (some ["f.png"]) =
      some ([NavAction.arm none, NavAction.close "",
        NavAction.click "" 2 false, NavAction.click "2024" 2 true,
        NavAction.arm (some "directory=2024%2Fspring"),
        NavAction.click "2024/spring" 1 true],
        ⟨false, true, "2024/spring", some ["f.png"],
          ⟨some "directory=2024%2Fspring", false, none⟩⟩, none) ∧
    closesOf [NavAction.arm none, NavAction.close "",
      NavAction.click "" 2 false, NavAction.click "2024" 2 true,
      NavAction.arm (some "directory=2024%2Fspring"),
      NavAction.click "2024/spring" 1 true] = [""] ∧
    ([""] : List String) ≠ [] ∧
    clickActsOf [NavAction.arm none, NavAction.close "",
      NavAction.click "" 2 false, NavAction.click "2024" 2 true,
      NavAction.arm (some "directory=2024%2Fspring"),
      NavAction.click "2024/spring" 1 true] =
      [("", 2, false), ("2024", 2, true), ("2024/spring", 1, true)] ∧
    ([("", 2, false), ("2024", 2, true), ("2024/spring", 1, true)] :
      List (String × Nat × Bool)) ≠
      [("2024", 2, true), ("2024/spring", 2, true)] := by
  refine ⟨by decide, by decide, by decide, by decide, by decide⟩

/-- C4: a successful `navigate(P)` followed immediately by `navigate(P)`
performs zero close and zero open actions the second time and leaves the
state — cursor and cached listing included — unchanged: the cursor-equality
short circuit returns before any gate arming or remote interaction. -/
theorem claim_C4 (s : CartminState) (t : String) (f f2 : Option (List String))
    (tr : List NavAction) (s' : CartminState)
    (h : navInFileManager s t f = some (tr, s', none)) :
    navInFileManager s' t f2 = some ([], s', none) := by
  obtain ⟨hcur, hframe, -⟩ := navInFileManager_ok_state s t f tr s' h
  unfold navInFileManager
  rw [hframe, if_neg (by decide : ¬ (true = false)), if_pos hcur]

/-- C4 witness: the repeated navigation to `"a/b"` is a no-op with an empty
action trace. -/
theorem claim_C4_witness :
    navInFileManager
      ⟨false, true, "a/b", some [], ⟨some "directory=a%2Fb", false, none⟩⟩
      "a/b" (some ["x"]) =
      some ([],
        ⟨false, true, "a/b", some [], ⟨some "directory=a%2Fb", false, none⟩⟩,
        none) :=
  claim_C4 (openFileManager initCartmin) "a/b" (some []) (some ["x"])
    [NavAction.arm none, NavAction.close "", NavAction.click "" 2 false,
      NavAction.click "a" 2 true, NavAction.arm (some "directory=a%2Fb"),
      NavAction.click "a/b" 1 true]
    ⟨false, true, "a/b", some [], ⟨some "directory=a%2Fb", false, none⟩⟩
    (by decide)

theorem navInFileManager_timeout_shape (s : CartminState) (t : String)
    (tr : List NavAction) (s' : CartminState) (e : NavError)
    (h : navInFileManager s t none = some (tr, s', some e))
    (hframe : s.fileManagerFrame = true) (hne : s.curDirPath ≠ t) :
    e = NavError.timeout 30000 ∧
    s' = { s with
      curDirPath := lastAdvanced s.curDirPath t,
      gate := ⟨some (payloadKey t), true, none⟩ } := by
  by_cases hmem : findAncestor s.curDirPath t ∈ truncChain s.curDirPath
  · rw [navInFileManager_eq_of_mem s t none hframe hne hmem] at h
    injection h with h'
    have h2 := congrArg (fun x => x.2.1) h'
    have h3 := congrArg (fun x => x.2.2) h'
    dsimp only at h2 h3
    exact ⟨(Option.some.inj h3).symm, h2.symm⟩
  · rw [navInFileManager_eq_none s t none hframe hne hmem] at h
    cases h

theorem lastAdvanced_mem (c t : String) : lastAdvanced c t ∈ truncChain t := by
  unfold lastAdvanced
  have hmem := List.getLastD_mem_cons
    ((findAncestor c t :: (belowChain t (findAncestor c t)).reverse).dropLast)
    (findAncestor c t)
  rcases List.mem_cons.mp hmem with h | h
  · rw [h]; exact findAncestor_mem c t
  · have hx2 := (List.dropLast_sublist _).subset h
    rcases List.mem_cons.mp hx2 with h2 | h2
    · rw [h2]; exact findAncestor_mem c t
    · rw [List.mem_reverse] at h2
      unfold belowChain at h2
      exact (List.takeWhile_sublist _).subset h2

theorem navInFileManager_retry (s : CartminState) (t : String)
    (hframe : s.fileManagerFrame = true) (hmem : s.curDirPath ∈ truncChain t)
    (files : List String) :
    ∃ tr2 s2, navInFileManager s t (some files) = some (tr2, s2, none) ∧
      s2.curDirPath = t := by
  by_cases hct : s.curDirPath = t
  · refine ⟨[], s, ?_, hct⟩
    unfold navInFileManager
    rw [hframe, if_neg (by decide : ¬ (true = false)), if_pos hct]
  · have hA : findAncestor s.curDirPath t = s.curDirPath :=
      findAncestor_self_of_mem hmem
    have hmem2 : findAncestor s.curDirPath t ∈ truncChain s.curDirPath := by
      rw [hA]; exact self_mem_truncChain _
    have heq := navInFileManager_eq_of_mem s t (some files) hframe hct hmem2
    exact ⟨_, _, heq, rfl⟩

/-- C6 (amended): when the listing wait of `navigate(targetPath)` times out
(default 30000 ms), the operation fails with the timeout rejection, the
cached listing is untouched, and the cursor is left at the last path the
reconciler advanced to — an element of targetPath's truncation chain, which
is a proper ancestor in general but targetPath itself when navigating up to
an ancestor of the cursor; an immediate retry of `navigate` with the same
target succeeds (no-op when the cursor already equals the target, otherwise
through the ancestor search) and ends with the cursor at the target. -/
theorem claim_C6 (s : CartminState) (t : String) (tr : List NavAction)
    (s' : CartminState) (e : NavError)
    (h : navInFileManager s t none = some (tr, s', some e))
    (hframe : s.fileManagerFrame = true) (hne : s.curDirPath ≠ t) :
    e = NavError.timeout 30000 ∧
    s'.curDirPath = lastAdvanced s.curDirPath t ∧
    s'.curDirPath ∈ truncChain t ∧
    s'.curDirFiles = s.curDirFiles ∧
    (∀ files : List String, ∃ tr2 s2,
      navInFileManager s' t (some files) = some (tr2, s2, none) ∧
      s2.curDirPath = t) := by
  obtain ⟨he, hs⟩ := navInFileManager_timeout_shape s t tr s' e h hframe hne
  subst hs
  refine ⟨he, rfl, lastAdvanced_mem s.curDirPath t, rfl, ?_⟩
  intro files
  exact navInFileManager_retry
    { s with
      curDirPath := lastAdvanced s.curDirPath t,
      gate := ⟨some (payloadKey t), true, none⟩ } t hframe
    (lastAdvanced_mem s.curDirPath t) files

/-- C6 witness: the timeout shape at the upward navigation from `"a/b"` to
`"a"`. -/
theorem claim_C6_witness :
    (⟨false, true, "a", some [],
      ⟨some "directory=a", true, none⟩⟩ : CartminState).curDirPath ∈
      truncChain "a" :=
  (claim_C6 ⟨false, true, "a/b", some [], ⟨none, false, none⟩⟩ "a"
    [NavAction.arm none, NavAction.close "a/b", NavAction.close "a",
      NavAction.arm (some "directory=a"), NavAction.click "a" 1 true]
    ⟨false, true, "a", some [], ⟨some "directory=a", true, none⟩⟩
    (NavError.timeout 30000) (by decide) (by decide) (by decide)).2.2.1

/-- C6 counterexample: when the cursor is `"a/b"` and `navigate("a")` times
out on the listing wait, the cursor is left at `"a"` — the target itself, not
a (proper) ancestor of the target as the claim states; the later no-op retry
then never refetches the listing. -/
theorem claim_C6_counterexample :
    navInFileManager ⟨false, true, "a/b", some [], ⟨none, false, none⟩⟩
      "a" none =
      some ([NavAction.arm none, NavAction.close "a/b", NavAction.close "a",
        NavAction.arm (some "directory=a"), NavAction.click "a" 1 true],
        ⟨false, true, "a", some [], ⟨some "directory=a", true, none⟩⟩,
        some (NavError.timeout 30000)) ∧
    (⟨false, true, "a", some [],
      ⟨some "directory=a", true, none⟩⟩ : CartminState).curDirPath = "a" ∧
    ("a" : String) ∉ (truncChain "a").tail := by
  refine ⟨by decide, by decide, by decide⟩

end Cartmin
